import Mathlib

/-!
Verification development for the Mentora RAG backend.

Shallow embedding of the four source fragments the claims are about:
* the SQL `match_documents` similarity-search function (with its owner filter),
* the Express authentication middleware (`authenticate`, `optionalAuth`),
* the Redis cache wrapper (`generateKey`, `get`, `set`),
* the CORS origin decision (`isOriginAllowed`).

Pure string primitives are re-implemented over `List Char` so that every
definition evaluates by kernel reduction.
-/

/-! ### String primitives (kernel-reducible models of the JS string methods) -/

/-- Model of JS `String.prototype.startsWith`. -/
def strStartsWith (s pre : String) : Bool :=
  pre.data.isPrefixOf s.data

/-- Model of JS `String.prototype.endsWith`. -/
def strEndsWith (s suffix : String) : Bool :=
  suffix.data.isSuffixOf s.data

/-- Model of JS `String.prototype.substring(n)` (drop the first `n` characters). -/
def strDrop (s : String) (n : Nat) : String :=
  String.mk (s.data.drop n)

/-- Substring containment on character lists (JS `String.prototype.includes`). -/
def containsL (pat : List Char) : List Char → Bool
  | [] => pat.isEmpty
  | c :: cs => pat.isPrefixOf (c :: cs) || containsL pat cs

/-- Model of JS `s.includes(pat)`. -/
def strContains (s pat : String) : Bool :=
  containsL pat.data s.data

/-- Replace the first occurrence of `pat` by `repl` (JS `String.prototype.replace`
with a string pattern replaces only the first occurrence). -/
def replaceFirstL (pat repl : List Char) : List Char → List Char
  | [] => []
  | c :: cs =>
    if pat.isPrefixOf (c :: cs) then repl ++ (c :: cs).drop pat.length
    else c :: replaceFirstL pat repl cs

/-- Model of JS `s.replace(pat, repl)` for a string pattern. -/
def strReplaceFirst (s pat repl : String) : String :=
  String.mk (replaceFirstL pat.data repl.data s.data)

/-- Everything after the first occurrence of `pat` (empty if `pat` is absent). -/
def dropAfterFirst (pat : List Char) : List Char → List Char
  | [] => []
  | c :: cs =>
    if pat.isPrefixOf (c :: cs) then (c :: cs).drop pat.length
    else dropAfterFirst pat cs

/-- Modelled from the spec: `new URL(origin).hostname` for an origin-shaped
input string — the text after `://` up to the first `:` or `/`, lowercased.
(The WHATWG URL parser is an external dependency of the source; only its
behaviour on origin strings matters here.) -/
def hostnameOf (origin : String) : String :=
  String.mk
    (((dropAfterFirst "://".data origin.data).takeWhile
      (fun c => !(c = ':') && !(c = '/'))).map Char.toLower)

/-- Split a character list on every occurrence of `sep` (JS-regex-group style). -/
def splitOnChar (sep : Char) : List Char → List (List Char)
  | [] => [[]]
  | c :: cs =>
    match splitOnChar sep cs with
    | [] => [[c]]
    | g :: gs => if c = sep then [] :: g :: gs else (c :: g) :: gs

/-- A character matched by the class `[0-9a-f]` under the `/i` flag. -/
def isHexChar (c : Char) : Bool :=
  decide (('0' ≤ c ∧ c ≤ '9') ∨ ('a' ≤ c ∧ c ≤ 'f') ∨ ('A' ≤ c ∧ c ≤ 'F'))

/-- Model of the source regex
`/^[0-9a-f]\x7b8\x7d-[0-9a-f]\x7b4\x7d-[0-9a-f]\x7b4\x7d-[0-9a-f]\x7b4\x7d-[0-9a-f]\x7b12\x7d$/i`:
five dash-separated groups of hex digits of lengths 8-4-4-4-12, case-insensitive. -/
def uuidTest (s : String) : Bool :=
  let parts := splitOnChar '-' s.data
  (parts.map List.length == [8, 4, 4, 4, 12]) && parts.all (fun p => p.all isHexChar)

/-! ### Authentication middleware (src/unnamed/part_001)

The middleware is modelled as a pure function of
* `verify` — the external `supabase.auth.getUser` call, abstracted as a
  function from the token to the optional verified user id (`none` models
  any verification failure: expired, malformed, revoked);
* `nodeEnv` — `process.env.NODE_ENV` (`none` when the variable is unset);
* `authHeader` — `req.headers.authorization`;
* `legacyUserId` — `req.headers` entry `x-user-id`.
The outcome is either an attached user id or the `AppError` the middleware
passes to `next` (message and HTTP status). -/

/-- Outcome of the `authenticate` middleware: either a user id attached to the
request, or an `AppError (message, status)` forwarded to the error handler. -/
inductive AuthOutcome where
  | authenticated (userId : String)
  | authError (message : String) (status : Nat)
deriving DecidableEq

/-- The JS condition `authHeader && authHeader.startsWith('Bearer ')` together
with `authHeader.substring(7)`: the bearer token when one is present. -/
def bearerToken (authHeader : Option String) : Option String :=
  match authHeader with
  | some h => if h != "" && strStartsWith h "Bearer " then some (strDrop h 7) else none
  | none => none

/-- Model of the `authenticate` middleware (src/unnamed/part_001, lines 23-68). -/
def authenticate (verify : String → Option String) (nodeEnv : Option String)
    (authHeader legacyUserId : Option String) : AuthOutcome :=
  match bearerToken authHeader with
  | some token =>
    match verify token with
    | some uid => .authenticated uid
    | none => .authError "Invalid or expired authentication token" 401
  | none =>
    match legacyUserId with
    | some s =>
      if nodeEnv != some "production" && s != "" then
        if uuidTest s then .authenticated s
        else .authError "Invalid user ID format" 400
      else .authError "Authentication required. Please sign in." 401
    | none => .authError "Authentication required. Please sign in." 401

/-- Model of the `optionalAuth` middleware (src/unnamed/part_001, lines 73-98):
it never produces an error, only an optionally attached user id. -/
def optionalAuth (verify : String → Option String) (nodeEnv : Option String)
    (authHeader legacyUserId : Option String) : Option String :=
  match bearerToken authHeader with
  | some token => verify token
  | none =>
    match legacyUserId with
    | some s =>
      if nodeEnv != some "production" && s != "" then
        if uuidTest s then some s else none
      else none
    | none => none

/-! ### CORS origin decision (src/rag-backend/src/app.js) -/

/-- The default `allowedOrigins` list of the source (no `CORS_ORIGINS` env). -/
def defaultAllowedOrigins : List String :=
  ["https://mentora-agentic-ai-frontend.vercel.app",
   "http://localhost:3000",
   "http://localhost:3001"]

/-- The `subdomain` computed inside `isOriginAllowed`:
`new URL(origin).hostname.replace('.vercel.app', '')`. -/
def subdomainOf (origin : String) : String :=
  strReplaceFirst (hostnameOf origin) ".vercel.app" ""

/-- Model of `isOriginAllowed` (src/rag-backend/src/app.js, lines 50-80).
The source is a chain of early `return true` branches, rendered here as a
boolean disjunction in the same order:
no origin, explicit allow-list, wildcard, Vercel deployments whose subdomain
starts with the project name or contains "mentora", localhost. -/
def isOriginAllowed (allowedOrigins : List String) (origin : Option String) : Bool :=
  match origin with
  | none => true
  | some o =>
    (o == "")
    || allowedOrigins.contains o
    || allowedOrigins.contains "*"
    || (strEndsWith o ".vercel.app"
        && (strStartsWith (subdomainOf o) "mentora-agentic-ai-frontend"
            || strContains (subdomainOf o) "mentora"))
    || strStartsWith o "http://localhost:"
    || strStartsWith o "http://127.0.0.1:"

/-! ### Cache wrapper (src/rag-backend/src/config/redis.js)

The external Redis client is modelled by a `RedisState`:
* `available` — the module-level `redisAvailable` flag (`isAvailable()`),
* `clientPresent` — `client !== null` (`getClient()` non-null),
* `isOpen` — the client's `isOpen` property,
* `failing` — whether the underlying network operation throws,
* `store` — the raw string contents of the key-value store (`none` for a key
  never written or whose entry has expired server-side).
`JSON.parse` / `JSON.stringify` are abstracted as `decode` / `encode`, with
`decode` returning `none` when parsing throws. -/

/-- State of the external Redis client as seen by the cache wrapper. -/
structure RedisState where
  available : Bool
  clientPresent : Bool
  isOpen : Bool
  failing : Bool
  store : String → Option String

/-- The underlying `client.get(key)` call: throws when the connection fails,
otherwise returns the raw stored string (or null for an absent key). -/
def rawGet (s : RedisState) (key : String) : Except String (Option String) :=
  if s.failing then .error "connection error" else .ok (s.store key)

/-- Model of the cache `get` (redis.js, lines 66-79): guards on availability,
client presence and openness return null; a thrown underlying error is caught
and becomes null; a falsy raw value is null; otherwise the value is decoded,
a decode failure (JSON.parse throwing, caught by the same handler) being null. -/
def cacheGet {V : Type} (decode : String → Option V) (s : RedisState)
    (key : String) : Option V :=
  if !s.available then none
  else if !s.clientPresent || !s.isOpen then none
  else
    match rawGet s key with
    | .error _ => none
    | .ok none => none
    | .ok (some raw) => if raw = "" then none else decode raw

/-- Model of the cache `set` (redis.js, lines 87-102): returns the success
boolean and the resulting store state; every failure path returns `false`
with the state unchanged, and a successful write stores the encoded value
(the TTL is applied by the external store and is not part of the state). -/
def cacheSet {V : Type} (encode : V → String) (s : RedisState)
    (key : String) (value : V) (ttlSeconds : Nat) : Bool × RedisState :=
  if !s.available then (false, s)
  else if !s.clientPresent || !s.isOpen then (false, s)
  else if s.failing then (false, s)
  else (true,
    { s with store := fun k => if k = key then some (encode value) else s.store k })

/-! ### Cache key derivation (redis.js, lines 58-61)

`crypto.createHash('sha256')` is an external dependency; it is modelled as an
arbitrary `digest` function producing the 32-byte SHA-256 output, and the
`'hex'` encoding of `digest(...)` is implemented concretely below. -/

/-- The lowercase hex character of a nibble value. -/
def nibbleChar (n : Fin 16) : Char :=
  if n.val < 10 then Char.ofNat (48 + n.val) else Char.ofNat (87 + n.val)

/-- The two lowercase hex characters of one byte (high nibble first). -/
def byteHexChars (b : Fin 256) : List Char :=
  [nibbleChar ⟨b.val / 16, by have h := b.isLt; omega⟩,
   nibbleChar ⟨b.val % 16, by omega⟩]

/-- Lowercase hex encoding of a byte string (node's `digest('hex')`). -/
def hexL : List (Fin 256) → List Char
  | [] => []
  | b :: bs => byteHexChars b ++ hexL bs

/-- Model of `generateKey(prefix, content)` (redis.js, lines 58-61):
the namespace, a colon, and the hex-encoded digest of the content. -/
def generateKey (digest : String → List (Fin 256)) (ns content : String) : String :=
  ns ++ ":" ++ String.mk (hexL (digest content))

/-! ### Scoped retrieval: `match_documents` (src/unnamed/part_000, lines 58-86)

A `document_chunks` row is a `Chunk`; the `user_id` column is nullable, hence
`Option String`. The pgvector `<=>` cosine-distance operator is an external
operator, abstracted as a `dist` function into `Rat`; `similarityOf` is the
`1 - (embedding <=> query_embedding)` expression of the SQL. `ORDER BY` on
the distance is modelled by an insertion sort on the distance key. -/

/-- A row of the `document_chunks` table (the columns `match_documents` uses). -/
structure Chunk (Emb : Type) where
  id : String
  content : String
  metadata : String
  user_id : Option String
  embedding : Emb
deriving DecidableEq

/-- A row of the table returned by `match_documents`. -/
structure MatchRow where
  id : String
  content : String
  metadata : String
  similarity : Rat
deriving DecidableEq

/-- The SQL similarity expression `1 - (embedding <=> query_embedding)`. -/
def similarityOf (d : Rat) : Rat := 1 - d

/-- The owner-filter predicate
`(p_user_id IS NULL OR document_chunks.user_id = p_user_id)`; a row whose
`user_id` is NULL fails the equality (SQL three-valued logic). -/
def eligibleB {Emb : Type} (pUserId : Option String) (c : Chunk Emb) : Bool :=
  match pUserId with
  | none => true
  | some u => c.user_id == some u

/-- The full WHERE clause of `match_documents`: owner filter AND
`1 - (embedding <=> query_embedding) > match_threshold`. -/
def passesFilter {Emb : Type} (dist : Emb → Emb → Rat) (q : Emb)
    (threshold : Rat) (pUserId : Option String) (c : Chunk Emb) : Bool :=
  eligibleB pUserId c && decide (similarityOf (dist c.embedding q) > threshold)

/-- Insert into a list sorted by ascending `key`: walk past the strictly
smaller keys, then place the element. -/
def insertByKey {α : Type} (key : α → Rat) (a : α) : List α → List α
  | [] => [a]
  | b :: l =>
    if key b < key a then b :: insertByKey key a l
    else a :: b :: l

/-- Sort by ascending `key` (models `ORDER BY embedding <=> query_embedding`). -/
def sortByKey {α : Type} (key : α → Rat) : List α → List α
  | [] => []
  | a :: l => insertByKey key a (sortByKey key l)

/-- The rows selected by `match_documents`: WHERE-filtered, ordered by
ascending distance, truncated by `LIMIT match_count`. -/
def matchedChunks {Emb : Type} (dist : Emb → Emb → Rat) (chunks : List (Chunk Emb))
    (queryEmbedding : Emb) (matchThreshold : Rat) (matchCount : Nat)
    (pUserId : Option String) : List (Chunk Emb) :=
  (sortByKey (fun c => dist c.embedding queryEmbedding)
    (chunks.filter (passesFilter dist queryEmbedding matchThreshold pUserId))).take
    matchCount

/-- Model of `match_documents`: the selected rows projected to the returned
columns `(id, content, metadata, similarity)`. -/
def match_documents {Emb : Type} (dist : Emb → Emb → Rat) (chunks : List (Chunk Emb))
    (queryEmbedding : Emb) (matchThreshold : Rat) (matchCount : Nat)
    (pUserId : Option String) : List MatchRow :=
  (matchedChunks dist chunks queryEmbedding matchThreshold matchCount pUserId).map
    (fun c => ⟨c.id, c.content, c.metadata, similarityOf (dist c.embedding queryEmbedding)⟩)

/-! ### Helper lemmas about the insertion sort -/

theorem mem_insertByKey {α : Type} (key : α → Rat) (a x : α) (l : List α) :
    x ∈ insertByKey key a l ↔ x = a ∨ x ∈ l := by
  induction l with
  | nil => simp [insertByKey]
  | cons b t ih =>
    by_cases h : key b < key a
    · simp only [insertByKey, if_pos h, List.mem_cons, ih]
      tauto
    · simp [insertByKey, h]

theorem mem_sortByKey {α : Type} (key : α → Rat) (x : α) (l : List α) :
    x ∈ sortByKey key l ↔ x ∈ l := by
  induction l with
  | nil => simp [sortByKey]
  | cons a t ih =>
    simp only [sortByKey, mem_insertByKey, ih, List.mem_cons]

theorem length_insertByKey {α : Type} (key : α → Rat) (a : α) (l : List α) :
    (insertByKey key a l).length = l.length + 1 := by
  induction l with
  | nil => rfl
  | cons b t ih =>
    by_cases h : key b < key a
    · simp [insertByKey, h, ih]
    · simp [insertByKey, h]

theorem length_sortByKey {α : Type} (key : α → Rat) (l : List α) :
    (sortByKey key l).length = l.length := by
  induction l with
  | nil => rfl
  | cons a t ih => simp [sortByKey, length_insertByKey, ih]

theorem pairwise_insertByKey {α : Type} (key : α → Rat) (a : α) (l : List α)
    (hl : List.Pairwise (fun u v => key u ≤ key v) l) :
    List.Pairwise (fun u v => key u ≤ key v) (insertByKey key a l) := by
  induction l with
  | nil => simp [insertByKey]
  | cons b t ih =>
    rcases List.pairwise_cons.mp hl with ⟨hb, ht⟩
    by_cases h : key b < key a
    · rw [insertByKey, if_pos h]
      refine List.pairwise_cons.mpr ⟨?_, ih ht⟩
      intro x hx
      rcases (mem_insertByKey key a x t).mp hx with hxa | hxt
      · exact hxa ▸ le_of_lt h
      · exact hb x hxt
    · rw [insertByKey, if_neg h]
      refine List.pairwise_cons.mpr ⟨?_, hl⟩
      intro x hx
      rcases List.mem_cons.mp hx with hxb | hxt
      · exact hxb ▸ le_of_not_lt h
      · exact le_trans (le_of_not_lt h) (hb x hxt)

theorem pairwise_sortByKey {α : Type} (key : α → Rat) (l : List α) :
    List.Pairwise (fun u v => key u ≤ key v) (sortByKey key l) := by
  induction l with
  | nil => exact List.Pairwise.nil
  | cons a t ih => exact pairwise_insertByKey key a (sortByKey key t) ih

theorem perm_insertByKey {α : Type} (key : α → Rat) (a : α) (l : List α) :
    List.Perm (insertByKey key a l) (a :: l) := by
  induction l with
  | nil => exact List.Perm.refl _
  | cons b t ih =>
    by_cases h : key b < key a
    · rw [insertByKey, if_pos h]
      exact List.Perm.trans (List.Perm.cons b ih) (List.Perm.swap a b t)
    · rw [insertByKey, if_neg h]

theorem perm_sortByKey {α : Type} (key : α → Rat) (l : List α) :
    List.Perm (sortByKey key l) l := by
  induction l with
  | nil => exact List.Perm.refl _
  | cons a t ih =>
    exact List.Perm.trans (perm_insertByKey key a (sortByKey key t))
      (List.Perm.cons a ih)

/-! ### Helper lemmas about the hex encoding -/

theorem nibbleChar_injective :
    ∀ m n : Fin 16, nibbleChar m = nibbleChar n → m = n := by
  decide

/-- A lowercase hexadecimal digit: a decimal digit or a letter between
`a` and `f`. -/
def isLowerHexDigit (c : Char) : Bool :=
  decide (('0' ≤ c ∧ c ≤ '9') ∨ ('a' ≤ c ∧ c ≤ 'f'))

theorem nibbleChar_lowercase_hex :
    ∀ n : Fin 16, isLowerHexDigit (nibbleChar n) = true := by
  decide

theorem length_hexL (bs : List (Fin 256)) : (hexL bs).length = 2 * bs.length := by
  induction bs with
  | nil => rfl
  | cons b t ih => simp [hexL, byteHexChars, ih]; ring

theorem hexL_injective (l1 l2 : List (Fin 256)) (h : hexL l1 = hexL l2) :
    l1 = l2 := by
  induction l1 generalizing l2 with
  | nil =>
    cases l2 with
    | nil => rfl
    | cons b t => simp [hexL, byteHexChars] at h
  | cons b1 t1 ih =>
    cases l2 with
    | nil => simp [hexL, byteHexChars] at h
    | cons b2 t2 =>
      simp only [hexL, byteHexChars, List.cons_append, List.nil_append,
        List.cons.injEq] at h
      rcases h with ⟨h1, h2, h3⟩
      have e1 := nibbleChar_injective _ _ h1
      have e2 := nibbleChar_injective _ _ h2
      have hv1 : b1.val / 16 = b2.val / 16 := congrArg Fin.val e1
      have hv2 : b1.val % 16 = b2.val % 16 := congrArg Fin.val e2
      have hb : b1 = b2 := by
        apply Fin.ext
        omega
      rw [hb, ih t2 h3]

/-- A chunk selected by `match_documents` satisfies the WHERE clause. -/
theorem passes_of_mem_matchedChunks {Emb : Type} (dist : Emb → Emb → Rat)
    (chunks : List (Chunk Emb)) (q : Emb) (t : Rat) (lim : Nat)
    (pu : Option String) (c : Chunk Emb)
    (hc : c ∈ matchedChunks dist chunks q t lim pu) :
    c ∈ chunks ∧ passesFilter dist q t pu c = true := by
  unfold matchedChunks at hc
  have h1 := List.mem_of_mem_take hc
  have h2 := (mem_sortByKey (fun c => dist c.embedding q) c _).mp h1
  exact List.mem_filter.mp h2

/-! ### Claim theorems -/

/-- C1: owner isolation of scoped retrieval — a `match_documents` call with
`p_user_id = u1` never selects a chunk owned by a different user `u2`, however
similar that chunk is to the query; and in general a selected chunk is always
eligible: `p_user_id` is NULL or the chunk's `user_id` equals `p_user_id`. -/
theorem spec_C1_owner_isolation {Emb : Type} (dist : Emb → Emb → Rat)
    (chunks : List (Chunk Emb)) (q : Emb) (t : Rat) (lim : Nat) :
    (∀ u1 u2 : String, u1 ≠ u2 →
      ∀ c ∈ matchedChunks dist chunks q t lim (some u1), c.user_id ≠ some u2)
    ∧ (∀ pu : Option String, ∀ c ∈ matchedChunks dist chunks q t lim pu,
        eligibleB pu c = true) := by
  have helper : ∀ pu : Option String, ∀ c ∈ matchedChunks dist chunks q t lim pu,
      eligibleB pu c = true := by
    intro pu c hc
    have h := (passes_of_mem_matchedChunks dist chunks q t lim pu c hc).2
    exact (Bool.and_eq_true _ _).mp h |>.1
  refine ⟨?_, helper⟩
  intro u1 u2 hne c hc
  have h := helper (some u1) c hc
  simp only [eligibleB] at h
  have : c.user_id = some u1 := by
    exact beq_iff_eq.mp h
  rw [this]
  intro hcontra
  exact hne (Option.some.injEq u1 u2 ▸ hcontra)

/-- Concrete distance function for witnesses: embeddings are rationals and the
external cosine-distance operator is instantiated by a constant 0. -/
def dist0 : Rat → Rat → Rat := fun _ _ => 0

/-- A concrete stored chunk owned by `userA`, used by the witnesses. -/
def chunkA : Chunk Rat :=
  { id := "c-1", content := "hello", metadata := "m", user_id := some "userA",
    embedding := 0 }

/-- Witness for C1: at a concrete store containing a chunk of `userA`, the
chunk is selected by a search scoped to `userA`, and the theorem yields that
its owner is not `userB`. -/
theorem spec_C1_owner_isolation_witness :
    chunkA ∈ matchedChunks dist0 [chunkA] 0 0 5 (some "userA") ∧
      chunkA.user_id ≠ some "userB" := by
  have hmem : chunkA ∈ matchedChunks dist0 [chunkA] 0 0 5 (some "userA") := by
    norm_num [matchedChunks, passesFilter, eligibleB, similarityOf, dist0, chunkA,
      sortByKey, insertByKey, List.filter]
  exact ⟨hmem, (spec_C1_owner_isolation dist0 [chunkA] 0 0 5).1 "userA" "userB"
    (by decide) chunkA hmem⟩

/-- C4: retrieval ranking — every selected chunk is eligible with similarity
strictly above the threshold; the selection is ordered by ascending distance
(equivalently descending similarity, similarity being `1 - distance`); at most
`limit` rows are returned (`limit = 0` returns none); when the WHERE clause
admits at most `limit` rows the selection is exactly the admitted rows; the
sorted list the selection is cut from is a permutation of exactly the
admitted rows; the selection followed by the cut-off rows reconstitutes that
sorted list (the selection is its prefix); the selection's length is exactly
`min limit #admitted`; and every cut-off admitted row is at least as distant
from the query as every selected row — so over-limit queries return
precisely the `limit` closest admitted rows, up to the ordering of ties. -/
theorem spec_C4_ranking {Emb : Type} (dist : Emb → Emb → Rat)
    (chunks : List (Chunk Emb)) (q : Emb) (t : Rat) (lim : Nat)
    (pu : Option String) :
    (∀ c ∈ matchedChunks dist chunks q t lim pu,
        eligibleB pu c = true ∧ similarityOf (dist c.embedding q) > t)
    ∧ List.Pairwise
        (fun u v => dist u.embedding q ≤ dist v.embedding q ∧
          similarityOf (dist v.embedding q) ≤ similarityOf (dist u.embedding q))
        (matchedChunks dist chunks q t lim pu)
    ∧ (matchedChunks dist chunks q t lim pu).length ≤ lim
    ∧ (lim = 0 → matchedChunks dist chunks q t lim pu = [])
    ∧ ((chunks.filter (passesFilter dist q t pu)).length ≤ lim →
        ∀ c : Chunk Emb, c ∈ matchedChunks dist chunks q t lim pu ↔
          c ∈ chunks ∧ passesFilter dist q t pu c = true)
    ∧ List.Perm
        (sortByKey (fun c => dist c.embedding q)
          (chunks.filter (passesFilter dist q t pu)))
        (chunks.filter (passesFilter dist q t pu))
    ∧ matchedChunks dist chunks q t lim pu ++
        (sortByKey (fun c => dist c.embedding q)
          (chunks.filter (passesFilter dist q t pu))).drop lim =
        sortByKey (fun c => dist c.embedding q)
          (chunks.filter (passesFilter dist q t pu))
    ∧ (matchedChunks dist chunks q t lim pu).length =
        min lim (chunks.filter (passesFilter dist q t pu)).length
    ∧ (∀ d ∈ (sortByKey (fun c => dist c.embedding q)
          (chunks.filter (passesFilter dist q t pu))).drop lim,
        ∀ c ∈ matchedChunks dist chunks q t lim pu,
          dist c.embedding q ≤ dist d.embedding q) := by
  refine ⟨?_, ?_, ?_, ?_, ?_, ?_, ?_, ?_, ?_⟩
  · intro c hc
    have h := (passes_of_mem_matchedChunks dist chunks q t lim pu c hc).2
    have h2 := (Bool.and_eq_true _ _).mp h
    exact ⟨h2.1, of_decide_eq_true h2.2⟩
  · have hsorted := pairwise_sortByKey (fun c => dist c.embedding q)
      (chunks.filter (passesFilter dist q t pu))
    have hsub := List.take_sublist lim
      (sortByKey (fun c => dist c.embedding q)
        (chunks.filter (passesFilter dist q t pu)))
    have := List.Pairwise.sublist hsub hsorted
    refine List.Pairwise.imp ?_ this
    intro u v huv
    refine ⟨huv, ?_⟩
    simp only [similarityOf]
    linarith
  · unfold matchedChunks
    rw [List.length_take]
    exact min_le_left _ _
  · intro h
    unfold matchedChunks
    rw [h]
    exact List.take_zero _
  · intro hlen c
    unfold matchedChunks
    rw [List.take_of_length_le (by rw [length_sortByKey]; exact hlen)]
    rw [mem_sortByKey, List.mem_filter]
  · exact perm_sortByKey (fun c => dist c.embedding q)
      (chunks.filter (passesFilter dist q t pu))
  · unfold matchedChunks
    exact List.take_append_drop lim _
  · unfold matchedChunks
    rw [List.length_take, length_sortByKey]
  · intro d hd c hc
    have hsorted := pairwise_sortByKey (fun c => dist c.embedding q)
      (chunks.filter (passesFilter dist q t pu))
    rw [← List.take_append_drop lim
      (sortByKey (fun c => dist c.embedding q)
        (chunks.filter (passesFilter dist q t pu)))] at hsorted
    have hsplit := (List.pairwise_append.mp hsorted).2.2
    unfold matchedChunks at hc
    exact hsplit c hc d hd

/-- A second concrete stored chunk, owned by `userB`, for the truncation part
of the C4 witness. -/
def chunkB : Chunk Rat :=
  { id := "c-2", content := "world", metadata := "m", user_id := some "userB",
    embedding := 0 }

/-- Witness for C4: at the concrete stores, the limit-0 query is empty, the
limit-1 query over one chunk selects exactly the chunks passing the filter,
and the over-limit query (two admitted chunks, limit 1) returns exactly
`min 1 2 = 1` row. -/
theorem spec_C4_ranking_witness :
    matchedChunks dist0 [chunkA] 0 0 0 none = [] ∧
      (chunkA ∈ matchedChunks dist0 [chunkA] 0 0 1 none ↔
        chunkA ∈ [chunkA] ∧ passesFilter dist0 0 0 none chunkA = true) ∧
      (matchedChunks dist0 [chunkA, chunkB] 0 0 1 none).length =
        min 1 ([chunkA, chunkB].filter (passesFilter dist0 0 0 none)).length := by
  refine ⟨?_, ?_, ?_⟩
  · exact (spec_C4_ranking dist0 [chunkA] 0 0 0 none).2.2.2.1 rfl
  · refine (spec_C4_ranking dist0 [chunkA] 0 0 1 none).2.2.2.2.1 ?_ chunkA
    norm_num [passesFilter, eligibleB, similarityOf, dist0, chunkA, List.filter]
  · exact (spec_C4_ranking dist0 [chunkA, chunkB] 0 0 1 none).2.2.2.2.2.2.2.1

/-- C6: threshold edge case — when the external distance operator is
nonnegative on the stored embeddings (cosine distance ranges over [0, 2], so
similarity is at most 1) every query with threshold at least 1.0 selects
nothing, in particular the `threshold = 1.0` query for any query embedding. -/
theorem spec_C6_threshold_at_max {Emb : Type} (dist : Emb → Emb → Rat)
    (chunks : List (Chunk Emb)) (q : Emb) (t : Rat) (lim : Nat)
    (pu : Option String)
    (hd : ∀ c ∈ chunks, 0 ≤ dist c.embedding q) (ht : (1 : Rat) ≤ t) :
    matchedChunks dist chunks q t lim pu = [] ∧
      match_documents dist chunks q t lim pu = [] := by
  have hsel : matchedChunks dist chunks q t lim pu = [] := by
    unfold matchedChunks
    have hfilter : chunks.filter (passesFilter dist q t pu) = [] := by
      rw [List.filter_eq_nil_iff]
      intro c hc
      simp only [passesFilter, Bool.and_eq_true, decide_eq_true_eq, not_and]
      intro _
      have h0 := hd c hc
      simp only [similarityOf]
      intro hgt
      linarith
    rw [hfilter]
    simp [sortByKey]
  refine ⟨hsel, ?_⟩
  unfold match_documents
  rw [hsel]
  rfl

/-- Witness for C6: the concrete one-chunk store with threshold exactly 1
yields the empty selection. -/
theorem spec_C6_threshold_at_max_witness :
    match_documents dist0 [chunkA] 0 1 5 none = [] := by
  exact (spec_C6_threshold_at_max dist0 [chunkA] 0 1 5 none
    (by intro c _; exact le_refl 0) (le_refl 1)).2

/-- C2 (amended): identity-resolution outcomes of `authenticate` — a present
bearer token failing verification yields the invalid-token error (401), never
a fallback; no credentials at all yields the authentication-required error
(401); in non-production mode a nonempty `X-User-Id` value failing UUID
syntax yields the format error (400), while an empty value is falsy in the
source and is treated as an absent header; in production mode an `X-User-Id`
header alone is ignored and yields the authentication-required error (401). -/
theorem spec_C2_identity_outcomes (verify : String → Option String)
    (nodeEnv : Option String) (authHeader legacyUserId : Option String) :
    (∀ tok, bearerToken authHeader = some tok → verify tok = none →
      authenticate verify nodeEnv authHeader legacyUserId =
        .authError "Invalid or expired authentication token" 401)
    ∧ (authHeader = none → legacyUserId = none →
      authenticate verify nodeEnv authHeader legacyUserId =
        .authError "Authentication required. Please sign in." 401)
    ∧ (∀ s, nodeEnv ≠ some "production" → authHeader = none →
      legacyUserId = some s → s ≠ "" → uuidTest s = false →
      authenticate verify nodeEnv authHeader legacyUserId =
        .authError "Invalid user ID format" 400)
    ∧ (nodeEnv = some "production" → authHeader = none →
      authenticate verify nodeEnv authHeader legacyUserId =
        .authError "Authentication required. Please sign in." 401) := by
  refine ⟨?_, ?_, ?_, ?_⟩
  · intro tok hb hv
    simp only [authenticate, hb, hv]
  · intro h1 h2
    subst h1
    subst h2
    simp [authenticate, bearerToken]
  · intro s hne h1 h2 hs hu
    subst h1
    subst h2
    simp [authenticate, bearerToken, hne, hs, hu, bne_iff_ne]
  · intro hp h1
    subst hp
    subst h1
    simp only [authenticate, bearerToken]
    cases legacyUserId with
    | none => rfl
    | some s => simp

/-- Counterexample for C2 as frozen: in non-production mode an `X-User-Id`
header that is present with the empty value — a value that fails UUID
syntax — does not produce the format error the claim requires; the falsy
check in the source treats it as an absent header and `authenticate` fails
with the authentication-required error instead. -/
theorem spec_C2_counterexample :
    uuidTest "" = false ∧
    authenticate (fun _ => none) (some "development") none (some "") =
      .authError "Authentication required. Please sign in." 401 ∧
    authenticate (fun _ => none) (some "development") none (some "") ≠
      .authError "Invalid user ID format" 400 := by
  refine ⟨by decide, rfl, ?_⟩
  intro h
  simp only [authenticate, bearerToken] at h
  simp at h

/-- Witness for C2 (amended): the three failure shapes at concrete inputs —
an expired bearer token in production, a malformed nonempty dev-mode header,
and a production request carrying only an `X-User-Id` header. -/
theorem spec_C2_identity_outcomes_witness :
    authenticate (fun _ => none) (some "production") (some "Bearer expired") none =
      .authError "Invalid or expired authentication token" 401 ∧
    authenticate (fun _ => none) (some "development") none (some "not-a-uuid") =
      .authError "Invalid user ID format" 400 ∧
    authenticate (fun _ => none) (some "production") none (some "not-a-uuid") =
      .authError "Authentication required. Please sign in." 401 := by
  refine ⟨?_, ?_, ?_⟩
  · exact (spec_C2_identity_outcomes (fun _ => none) (some "production")
      (some "Bearer expired") none).1 "expired" (by decide) rfl
  · exact (spec_C2_identity_outcomes (fun _ => none) (some "development")
      none (some "not-a-uuid")).2.2.1 "not-a-uuid" (by decide) rfl rfl
      (by decide) (by decide)
  · exact (spec_C2_identity_outcomes (fun _ => none) (some "production")
      none (some "not-a-uuid")).2.2.2 rfl rfl

/-- C3: production identity invariant — in production mode a user id attached
by `authenticate` or `optionalAuth` can only come from a verified bearer
token; and whenever no bearer token is supplied, an attached identity must
come from the `X-User-Id` header in non-production mode with a value passing
UUID syntax. -/
theorem spec_C3_production_identity (verify : String → Option String)
    (nodeEnv : Option String) (authHeader legacyUserId : Option String) :
    (nodeEnv = some "production" →
      (∀ uid, authenticate verify nodeEnv authHeader legacyUserId =
          .authenticated uid →
        ∃ tok, bearerToken authHeader = some tok ∧ verify tok = some uid)
      ∧ (∀ uid, optionalAuth verify nodeEnv authHeader legacyUserId = some uid →
        ∃ tok, bearerToken authHeader = some tok ∧ verify tok = some uid))
    ∧ (∀ uid, bearerToken authHeader = none →
      (authenticate verify nodeEnv authHeader legacyUserId = .authenticated uid ∨
        optionalAuth verify nodeEnv authHeader legacyUserId = some uid) →
      nodeEnv ≠ some "production" ∧ legacyUserId = some uid ∧
        uuidTest uid = true) := by
  constructor
  · intro hp
    subst hp
    constructor
    · intro uid h
      cases hb : bearerToken authHeader with
      | some tok =>
        simp only [authenticate, hb] at h
        cases hv : verify tok with
        | some u =>
          rw [hv] at h
          simp only [AuthOutcome.authenticated.injEq] at h
          exact ⟨tok, rfl, h ▸ hv⟩
        | none =>
          rw [hv] at h
          simp at h
      | none =>
        simp only [authenticate, hb] at h
        cases legacyUserId with
        | none => simp at h
        | some s => simp at h
    · intro uid h
      cases hb : bearerToken authHeader with
      | some tok =>
        simp only [optionalAuth, hb] at h
        exact ⟨tok, rfl, h⟩
      | none =>
        simp only [optionalAuth, hb] at h
        cases legacyUserId with
        | none => simp at h
        | some s => simp at h
  · intro uid hb hor
    simp only [authenticate, optionalAuth, hb] at hor
    cases legacyUserId with
    | none => simp at hor
    | some s =>
      by_cases hc : (nodeEnv != some "production" && s != "") = true
      · have hne : nodeEnv ≠ some "production" :=
          bne_iff_ne.mp ((Bool.and_eq_true _ _).mp hc).1
        by_cases hu : uuidTest s = true
        · simp only [hc, hu, if_true] at hor
          have hs : s = uid := by
            rcases hor with h | h
            · exact (AuthOutcome.authenticated.injEq _ _).mp h
            · exact (Option.some.injEq _ _).mp h
          exact ⟨hne, hs ▸ rfl, hs ▸ hu⟩
        · rw [Bool.not_eq_true] at hu
          simp [hc, hu] at hor
      · rw [Bool.not_eq_true] at hc
        simp [hc] at hor

/-- Witness for C3: a production request with a verified bearer token, run
through the theorem, exhibits the token behind the attached identity; and a
development request authenticated through a syntactically valid `X-User-Id`
header is certified to be in non-production mode with a UUID-shaped value. -/
theorem spec_C3_production_identity_witness :
    (∃ tok, bearerToken (some "Bearer t-1") = some tok ∧
      (fun _ => (some "uid-1" : Option String)) tok = some "uid-1") ∧
    ((some "development" : Option String) ≠ some "production" ∧
      (some "123e4567-e89b-12d3-a456-426614174000" : Option String) =
        some "123e4567-e89b-12d3-a456-426614174000" ∧
      uuidTest "123e4567-e89b-12d3-a456-426614174000" = true) := by
  constructor
  · exact ((spec_C3_production_identity (fun _ => some "uid-1") (some "production")
      (some "Bearer t-1") none).1 rfl).1 "uid-1" rfl
  · exact (spec_C3_production_identity (fun _ => none) (some "development")
      none (some "123e4567-e89b-12d3-a456-426614174000")).2
      "123e4567-e89b-12d3-a456-426614174000" rfl (Or.inl (by decide))

/-- C7: the optional variant never fails — `optionalAuth` attaches exactly
the identities `authenticate` would attach and leaves the request anonymous
(attaching nothing, producing no error) exactly when `authenticate` would
fail, for every combination of credentials and environment. -/
theorem spec_C7_optionalAuth_never_fails (verify : String → Option String)
    (nodeEnv : Option String) (authHeader legacyUserId : Option String) :
    (∀ uid, authenticate verify nodeEnv authHeader legacyUserId =
        .authenticated uid ↔
      optionalAuth verify nodeEnv authHeader legacyUserId = some uid)
    ∧ (∀ msg code, authenticate verify nodeEnv authHeader legacyUserId =
        .authError msg code →
      optionalAuth verify nodeEnv authHeader legacyUserId = none) := by
  cases hb : bearerToken authHeader with
  | some tok =>
    cases hv : verify tok with
    | some u =>
      constructor
      · intro uid
        simp [authenticate, optionalAuth, hb, hv]
      · intro msg code h
        simp [authenticate, hb, hv] at h
    | none =>
      constructor
      · intro uid
        simp [authenticate, optionalAuth, hb, hv]
      · intro msg code _
        simp [optionalAuth, hb, hv]
  | none =>
    cases hl : legacyUserId with
    | none =>
      constructor
      · intro uid
        simp [authenticate, optionalAuth, hb]
      · intro msg code _
        simp [optionalAuth, hb]
    | some s =>
      by_cases hc : (nodeEnv != some "production" && s != "") = true
      · by_cases hu : uuidTest s = true
        · constructor
          · intro uid
            simp [authenticate, optionalAuth, hb, hc, hu]
          · intro msg code h
            simp [authenticate, hb, hc, hu] at h
        · constructor
          · intro uid
            simp [authenticate, optionalAuth, hb, hc, hu]
          · intro msg code _
            simp [optionalAuth, hb, hc, hu]
      · constructor
        · intro uid
          simp [authenticate, optionalAuth, hb, hc]
        · intro msg code _
          simp [optionalAuth, hb, hc]

/-- Witness for C7: a production request carrying a bearer token that fails
verification — `authenticate` rejects it and `optionalAuth` leaves the same
request anonymous. -/
theorem spec_C7_optionalAuth_never_fails_witness :
    optionalAuth (fun _ => none) (some "production") (some "Bearer bad") none =
      none := by
  exact (spec_C7_optionalAuth_never_fails (fun _ => none) (some "production")
    (some "Bearer bad") none).2 "Invalid or expired authentication token" 401 rfl

/-- C9: an `Authorization` header not beginning with the prefix
`Bearer` followed by a space is treated by `authenticate` exactly as an
absent header — the external verifier is never consulted (the outcome is the
same for every verifier) and resolution proceeds to the dev-mode path or to
the authentication-required error. -/
theorem spec_C9_non_bearer_header (verify verifyOther : String → Option String)
    (nodeEnv : Option String) (h : String) (legacyUserId : Option String)
    (hns : strStartsWith h "Bearer " = false) :
    authenticate verify nodeEnv (some h) legacyUserId =
      authenticate verifyOther nodeEnv none legacyUserId := by
  have hb : bearerToken (some h) = none := by
    simp [bearerToken, hns]
  simp only [authenticate, hb]
  rfl

/-- Witness for C9: a non-Bearer `Authorization` scheme in production is
resolved identically to a credential-less request, for two verifiers that
disagree everywhere. -/
theorem spec_C9_non_bearer_header_witness :
    authenticate (fun _ => some "x") (some "production") (some "Token abc") none =
      authenticate (fun _ => none) (some "production") none none := by
  exact spec_C9_non_bearer_header (fun _ => some "x") (fun _ => none)
    (some "production") "Token abc" none (by decide)

/-- C5: cache totality and degradation — `get` returns absent (null) when the
store is flagged unavailable, when the client is missing or closed, when the
underlying read throws, when the key was never written or its entry has
expired, and when the stored value fails to decode; `set` returns the failure
boolean `false` when the store is unavailable, the client is missing or
closed, or the write throws. Both are total functions of the state: no path
raises. -/
theorem spec_C5_cache_degradation {V : Type} (decode : String → Option V)
    (encode : V → String) (s : RedisState) (key : String) (value : V)
    (ttlSeconds : Nat) :
    (s.available = false → cacheGet decode s key = none)
    ∧ (s.clientPresent = false ∨ s.isOpen = false → cacheGet decode s key = none)
    ∧ (s.failing = true → cacheGet decode s key = none)
    ∧ (s.store key = none → cacheGet decode s key = none)
    ∧ (∀ raw, s.store key = some raw → decode raw = none →
        cacheGet decode s key = none)
    ∧ ((s.available = false ∨ s.clientPresent = false ∨ s.isOpen = false ∨
        s.failing = true) → (cacheSet encode s key value ttlSeconds).1 = false) := by
  refine ⟨?_, ?_, ?_, ?_, ?_, ?_⟩
  · intro h
    simp [cacheGet, h]
  · intro h
    rcases h with h | h <;> simp [cacheGet, h]
  · intro h
    simp [cacheGet, rawGet, h]
  · intro h
    unfold cacheGet rawGet
    rw [h]
    by_cases hf : s.failing = true
    · simp [hf]
    · rw [Bool.not_eq_true] at hf
      simp [hf]
  · intro raw h hdec
    unfold cacheGet rawGet
    rw [h]
    by_cases hf : s.failing = true
    · simp [hf]
    · rw [Bool.not_eq_true] at hf
      simp [hf, hdec]
  · intro h
    rcases h with h | h | h | h <;> simp [cacheSet, h]

/-- A concrete cache state whose store is flagged unavailable, used by the
witness below. -/
def downState : RedisState :=
  { available := false, clientPresent := false, isOpen := false,
    failing := false, store := fun _ => none }

/-- Witness for C5: against the unavailable store, `get` is a miss and `set`
reports failure. -/
theorem spec_C5_cache_degradation_witness :
    cacheGet (fun _ => (none : Option Nat)) downState "k" = none ∧
    (cacheSet (fun n : Nat => toString n) downState "k" 7 3600).1 = false := by
  constructor
  · exact (spec_C5_cache_degradation (fun _ => (none : Option Nat))
      (fun n : Nat => toString n) downState "k" 7 3600).1 rfl
  · exact (spec_C5_cache_degradation (fun _ => (none : Option Nat))
      (fun n : Nat => toString n) downState "k" 7 3600).2.2.2.2.2 (Or.inl rfl)

/-- Counterexample for C8 as frozen: the origin
`https://mentora.example.com` has a hostname containing the substring
"mentora", yet `isOriginAllowed` (with the default allow-list) rejects it —
the "mentora" test in the source is only reached for origins ending in
`.vercel.app`. -/
theorem spec_C8_counterexample :
    strContains (hostnameOf "https://mentora.example.com") "mentora" = true ∧
    isOriginAllowed defaultAllowedOrigins (some "https://mentora.example.com") =
      false := by
  decide

/-- C8 (amended): every origin ending in `.vercel.app` whose subdomain (the
hostname with its first `.vercel.app` removed) contains the substring
"mentora" passes the origin-allow decision, for every allow-list. -/
theorem spec_C8_vercel_mentora (allowedOrigins : List String) (o : String)
    (h1 : strEndsWith o ".vercel.app" = true)
    (h2 : strContains (subdomainOf o) "mentora" = true) :
    isOriginAllowed allowedOrigins (some o) = true := by
  simp [isOriginAllowed, h1, h2]

/-- Witness for C8 (amended): a Vercel preview deployment whose subdomain
contains "mentora" is allowed under the default allow-list. -/
theorem spec_C8_vercel_mentora_witness :
    isOriginAllowed defaultAllowedOrigins
      (some "https://my-mentora-preview.vercel.app") = true := by
  exact spec_C8_vercel_mentora defaultAllowedOrigins
    "https://my-mentora-preview.vercel.app" (by decide) (by decide)

/-- Every character produced by the hex encoding is a lowercase hex digit. -/
theorem hexL_lowercase (bs : List (Fin 256)) :
    ∀ ch ∈ hexL bs, isLowerHexDigit ch = true := by
  induction bs with
  | nil =>
    intro ch h
    simp [hexL] at h
  | cons b t ih =>
    intro ch h
    simp only [hexL, byteHexChars, List.cons_append, List.nil_append,
      List.mem_cons] at h
    rcases h with h | h | h
    · exact h ▸ nibbleChar_lowercase_hex _
    · exact h ▸ nibbleChar_lowercase_hex _
    · exact ih ch h

/-- Two strings with the same character data are equal. -/
theorem string_data_inj (s t : String) (h : s.data = t.data) : s = t := by
  cases s
  cases t
  exact congrArg String.mk h

/-- C10: the derived cache key is exactly the namespace, a colon, and the
64-character lowercase-hex encoding of the 32-byte SHA-256 digest of the
content (the digest function itself is the external `crypto` dependency,
abstracted over all 32-byte digest functions); consequently equal keys force
equal namespaces and equal digests. -/
theorem spec_C10_generateKey (digest : String → List (Fin 256))
    (hlen : ∀ s, (digest s).length = 32) (ns content : String) :
    generateKey digest ns content =
      ns ++ ":" ++ String.mk (hexL (digest content))
    ∧ (String.mk (hexL (digest content))).length = 64
    ∧ (∀ ch ∈ hexL (digest content), isLowerHexDigit ch = true)
    ∧ (∀ ns1 c1 ns2 c2, generateKey digest ns1 c1 = generateKey digest ns2 c2 →
        ns1 = ns2 ∧ digest c1 = digest c2) := by
  refine ⟨rfl, ?_, hexL_lowercase (digest content), ?_⟩
  · show (hexL (digest content)).length = 64
    rw [length_hexL, hlen]
  · intro ns1 c1 ns2 c2 h
    have hd := congrArg String.data h
    simp only [generateKey, String.data_append] at hd
    have hlenhex : (String.mk (hexL (digest c1))).data.length =
        (String.mk (hexL (digest c2))).data.length := by
      show (hexL (digest c1)).length = (hexL (digest c2)).length
      rw [length_hexL, length_hexL, hlen, hlen]
    obtain ⟨hns, hhex⟩ := List.append_inj' hd hlenhex
    have hhex2 : hexL (digest c1) = hexL (digest c2) := hhex
    obtain ⟨hns2, -⟩ := List.append_inj' hns (by rfl :
      (":" : String).data.length = (":" : String).data.length)
    exact ⟨string_data_inj ns1 ns2 hns2, hexL_injective _ _ hhex2⟩

/-- Concrete 32-byte digest function for the C10 witness. -/
def digest0 : String → List (Fin 256) := fun _ => List.replicate 32 0

/-- Witness for C10: the all-zero 32-byte digest yields a 64-character hex
suffix, and key equality at concrete inputs yields namespace and digest
equality. -/
theorem spec_C10_generateKey_witness :
    (String.mk (hexL (digest0 "x"))).length = 64 ∧
    ("q" : String) = "q" ∧ digest0 "x" = digest0 "x" := by
  constructor
  · exact (spec_C10_generateKey digest0 (fun s => by simp [digest0]) "q" "x").2.1
  · exact (spec_C10_generateKey digest0 (fun s => by simp [digest0]) "q" "x").2.2.2
      "q" "x" "q" "x" rfl


